import Mathlib

/-!
Verification development for the noir consensus core (haderech/smite).

The consensus state machine of `src/noir/consensus/consensus_state.cpp` is
shallowly embedded below: each C++ member function becomes a Lean function on
an explicit state record.  Machine integers (`int64_t` heights, `int32_t`
rounds) are modelled as `Int`; the claims proved here never exercise
overflow, except for one explicit `int32_t` cast in the state store which is
modelled by `toInt32`.  C++ exceptions are modelled by an `error` field (the
first thrown error is kept); `make_scoped_exit` deferred blocks, which run
even while an exception propagates, are modelled by `with_defer`.
Dereferencing an empty `std::optional` (undefined behaviour in C++) is
modelled as an `empty_optional` error.

Types whose implementation is not part of the sources (vote sets, part sets,
validator sets, the scale codec) are modelled from the specification; each
such definition says so in its doc comment.
-/

namespace Noir

/-- Byte strings (`noir::p2p::bytes`) as lists of byte values. -/
abbrev bytes := List Nat

/-- `round_step_type`, the consensus step, ordered as in the spec
(NewHeight < NewRound < ... < Commit); numeric values follow the Tendermint
convention starting at 1, matching the `step > 0` comparison in `tick`. -/
inductive round_step_type where
  | NewHeight
  | NewRound
  | Propose
  | Prevote
  | PrevoteWait
  | Precommit
  | PrecommitWait
  | Commit
deriving DecidableEq

/-- Numeric value of a step, used by the `<`/`<=` comparisons in the source. -/
def round_step_type.val : round_step_type → Nat
  | .NewHeight => 1
  | .NewRound => 2
  | .Propose => 3
  | .Prevote => 4
  | .PrevoteWait => 5
  | .Precommit => 6
  | .PrecommitWait => 7
  | .Commit => 8

/-- `p2p::signed_msg_type`; `Unknown` stands for any other enum value. -/
inductive signed_msg_type where
  | Unknown
  | Prevote
  | Precommit
deriving DecidableEq

/-- `p2p::part_set_header`. -/
structure part_set_header where
  total : Nat
  hash : bytes
deriving DecidableEq

/-- The zero `part_set_header` (`p2p::part_set_header{}`). -/
def psh_zero : part_set_header := ⟨0, []⟩

/-- `p2p::block_id`; a nil block id has an empty hash. -/
structure block_id where
  hash : bytes
  parts : part_set_header
deriving DecidableEq

/-- Modelled from the spec: a block is identified by its hash and carries the
BFT timestamp of its header (the only two observations `consensus_state.cpp`
makes of a block: `get_hash()` and `header.time`). -/
structure block where
  hash : bytes
  time : Int
deriving DecidableEq

/-- Modelled from the spec: `block::hashes_to(h)` compares the block hash. -/
def block.hashes_to (b : block) (h : bytes) : Bool := b.hash == h

/-- Modelled from the spec: a `part_set` as observed by `consensus_state.cpp`
(`total`, `header()`, `has_header`, and `new_part_set_from_header`). -/
structure part_set where
  total : Nat
  header_ : part_set_header
deriving DecidableEq

/-- `part_set::has_header`. -/
def part_set.has_header (ps : part_set) (h : part_set_header) : Bool := ps.header_ == h

/-- `part_set::new_part_set_from_header`: an empty part set awaiting
`h.total` parts. -/
def part_set.new_part_set_from_header (h : part_set_header) : part_set :=
  { total := h.total, header_ := h }

/-- `p2p::proposal_message` (also standing for `proposal`). -/
structure proposal_msg where
  height : Int
  round : Int
  pol_round : Int
  block_id_ : block_id
deriving DecidableEq

/-- A vote as built by `sign_vote`. -/
structure vote where
  type_ : signed_msg_type
  height : Int
  round : Int
  block_id_ : block_id
  timestamp : Int
  validator_address : bytes
  validator_index : Int
deriving DecidableEq

/-- Modelled from the spec: a validator set as observed by
`consensus_state.cpp` — membership, index lookup, the proposer address, and
the accumulated proposer-priority increments (the deterministic rotation
itself is abstracted into the accumulated count). -/
structure validator_set where
  addrs : List bytes
  proposer_addr : bytes
  accumulated : Int
deriving DecidableEq

/-- `validator_set::has_address`. -/
def validator_set.has_address (vs : validator_set) (a : bytes) : Bool := vs.addrs.contains a

/-- `validator_set::get_index_by_address`: index of the address or `-1`. -/
def validator_set.get_index_by_address (vs : validator_set) (a : bytes) : Int :=
  match vs.addrs.indexOf? a with
  | some i => (i : Int)
  | none => -1

/-- `validator_set::increment_proposer_priority`: modelled from the spec as
recording the number of deterministic rotation steps applied. -/
def validator_set.increment_proposer_priority (vs : validator_set) (n : Int) : validator_set :=
  { vs with accumulated := vs.accumulated + n }

/-- Modelled from the spec: a `vote_set` as observed by the consensus state —
the stored votes, the expected number of voters, and the snapshot answers of
its 2/3 queries (`two_thirds_majority`, `has_two_thirds_majority`,
`has_two_thirds_any`). -/
structure vote_set where
  height : Int
  total : Nat
  votes : List vote
  maj23 : Option block_id
  has_maj23 : Bool
  any23 : Bool
deriving DecidableEq

/-- Modelled from the spec: `vote_set::add_vote` rejects a wrong-height vote
and a second vote by the same validator of the same type; otherwise the vote
is stored. -/
def vote_set.add_vote_set (vs : vote_set) (v : vote) : vote_set × Bool :=
  if v.height ≠ vs.height then (vs, false)
  else if vs.votes.any (fun w => decide (w.validator_index = v.validator_index) &&
      decide (w.type_ = v.type_)) then (vs, false)
  else ({ vs with votes := v :: vs.votes }, true)

/-- Modelled from the spec: `vote_set::has_all` — every expected voter has
voted. -/
def vote_set.has_all (vs : vote_set) : Bool := vs.votes.length == vs.total

/-- Modelled from the spec: a `height_vote_set` keeps one prevote and one
precommit `vote_set` per round (total tables here; lazy allocation needs no
model), the current round, and `pol_info()` as the recorded highest
prevote-polka round. -/
structure height_vote_set where
  prevote_sets : Int → vote_set
  precommit_sets : Int → vote_set
  pol_round : Int
  round : Int

/-- `height_vote_set::set_round`. -/
def height_vote_set.set_round (hvs : height_vote_set) (r : Int) : height_vote_set :=
  { hvs with round := r }

/-- Modelled from the spec: `height_vote_set::add_vote` files the vote into
the vote set of its round and type. -/
def height_vote_set.add_vote (hvs : height_vote_set) (v : vote) : height_vote_set × Bool :=
  match v.type_ with
  | .Prevote =>
    let p := (hvs.prevote_sets v.round).add_vote_set v
    ({ hvs with prevote_sets := fun r => if r = v.round then p.1 else hvs.prevote_sets r }, p.2)
  | .Precommit =>
    let p := (hvs.precommit_sets v.round).add_vote_set v
    ({ hvs with precommit_sets := fun r => if r = v.round then p.1 else hvs.precommit_sets r }, p.2)
  | .Unknown => (hvs, false)

/-- Modelled from the spec: a fresh, empty `vote_set`. -/
def vote_set.new_empty (height : Int) (total : Nat) : vote_set :=
  { height := height, total := total, votes := [], maj23 := none,
    has_maj23 := false, any23 := false }

/-- `height_vote_set::new_height_vote_set` (the chain id plays no role in the
embedding): fresh empty tables for a height and validator set. -/
def height_vote_set.new_height_vote_set (height : Int) (vals : validator_set) : height_vote_set :=
  { prevote_sets := fun _ => vote_set.new_empty height vals.addrs.length,
    precommit_sets := fun _ => vote_set.new_empty height vals.addrs.length,
    pol_round := -1,
    round := 0 }

/-- A public key; `address()` is modelled from the spec as the key bytes and
`empty()` as emptiness of the key. -/
structure pub_key where
  key : bytes
deriving DecidableEq

/-- `pub_key::address`. -/
def pub_key.address (p : pub_key) : bytes := p.key

/-- `pub_key::empty`. -/
def pub_key.empty_key (p : pub_key) : Bool := p.key == []

/-- Modelled from the spec: the private validator exposes its public key. -/
structure priv_validator where
  pub : pub_key
deriving DecidableEq

/-- The subset of `noir::consensus::state` read by `consensus_state.cpp`.
`is_empty` is not in the sources and is modelled from the spec as a flag for
a default-constructed state. -/
structure state where
  initial_height : Int
  last_block_height : Int
  validators : validator_set
  last_validators : validator_set
  empty_ : Bool
deriving DecidableEq

/-- `state::is_empty`. -/
def state.is_empty (st : state) : Bool := st.empty_

/-- The consensus configuration fields used by the embedded functions;
durations are abstract integer time units. -/
structure consensus_config where
  timeout_propose : Int
  timeout_propose_delta : Int
  timeout_prevote : Int
  timeout_prevote_delta : Int
  timeout_precommit : Int
  timeout_precommit_delta : Int
  timeout_commit : Int
  skip_timeout_commit : Bool
deriving DecidableEq

/-- Modelled from the spec: the propose timeout grows by its delta each
round. -/
def consensus_config.propose (c : consensus_config) (r : Int) : Int :=
  c.timeout_propose + c.timeout_propose_delta * r

/-- Modelled from the spec: the prevote-wait timeout grows by its delta each
round. -/
def consensus_config.prevote (c : consensus_config) (r : Int) : Int :=
  c.timeout_prevote + c.timeout_prevote_delta * r

/-- Modelled from the spec: the precommit-wait timeout grows by its delta
each round. -/
def consensus_config.precommit (c : consensus_config) (r : Int) : Int :=
  c.timeout_precommit + c.timeout_precommit_delta * r

/-- `timeout_info`. -/
structure timeout_info where
  duration_ : Int
  height : Int
  round : Int
  step : round_step_type
deriving DecidableEq

/-- `round_state` (§3 of the spec), the record mutated by the state
machine. -/
structure round_state where
  height : Int
  round : Int
  step : round_step_type
  start_time : Int
  proposal : Option proposal_msg
  proposal_block : Option block
  proposal_block_parts : Option part_set
  locked_round : Int
  locked_block : Option block
  locked_block_parts : Option part_set
  valid_round : Int
  valid_block : Option block
  valid_block_parts : Option part_set
  votes : height_vote_set
  commit_round : Int
  commit_time : Int
  last_commit : Option vote_set
  validators : validator_set
  last_validators : validator_set
  triggered_timeout_precommit : Bool

/-- Errors of the embedding: `invariant` models a thrown
`std::runtime_error`, `empty_optional` marks a dereference of an empty
`std::optional` (undefined behaviour in the C++ source). -/
inductive cs_error where
  | invariant (msg : String)
  | empty_optional (fld : String)
deriving DecidableEq

/-- Messages published on the internal message queue. -/
inductive out_msg where
  | vote_out (v : vote)
  | proposal_out (p : proposal_msg)
deriving DecidableEq

/-- The full consensus-state embedding: the round state, configuration,
local state, signer data, the current clock, and observable traces — the
`schedule_timeout` calls, the published messages, the `sign_add_vote` calls,
and the first error thrown. -/
structure cs_state where
  rs : round_state
  cs_config : consensus_config
  local_state : state
  local_priv_validator : Option priv_validator
  local_priv_validator_pub_key : pub_key
  now : Int
  timeouts : List timeout_info
  outbox : List out_msg
  signed_calls : List (signed_msg_type × bytes × part_set_header)
  error : Option cs_error
  n_steps : Int

/-- Record a thrown exception (first error wins at `with_defer`). -/
def throw_err (s : cs_state) (e : cs_error) : cs_state := { s with error := some e }

/-- `make_scoped_exit`: the deferred block runs when the scope is left, also
while an exception propagates; the first error is kept. -/
def with_defer (body defer : cs_state → cs_state) (s : cs_state) : cs_state :=
  let s1 := body s
  let s2 := defer { s1 with error := none }
  match s1.error with
  | some e => { s2 with error := some e }
  | none => s2

/-- `consensus_state::update_round_step`. -/
def update_round_step (round : Int) (step : round_step_type) (s : cs_state) : cs_state :=
  { s with rs := { s.rs with round := round, step := step } }

/-- `consensus_state::new_step` (only the step counter is observable). -/
def new_step (s : cs_state) : cs_state := { s with n_steps := s.n_steps + 1 }

/-- `consensus_state::schedule_timeout`: the scheduled `timeout_info` is
appended to the trace (the ticker itself is modelled separately by
`tick`). -/
def schedule_timeout (d height round : Int) (step : round_step_type) (s : cs_state) : cs_state :=
  { s with timeouts := s.timeouts ++ [⟨d, height, round, step⟩] }

/-- `consensus_state::schedule_round_0`. -/
def schedule_round_0 (s : cs_state) : cs_state :=
  schedule_timeout (s.rs.start_time - s.now) s.rs.height 0 .NewHeight s

/-- `consensus_state::update_priv_validator_pub_key` (the signer-timeout
computation has no observable effect). -/
def update_priv_validator_pub_key (s : cs_state) : cs_state :=
  match s.local_priv_validator with
  | none => s
  | some pv => { s with local_priv_validator_pub_key := pv.pub }

/-- `consensus_state::vote_time`: monotone vote time over the locked or
proposal block time. -/
def vote_time (s : cs_state) : Int :=
  let min_vote_time :=
    match s.rs.locked_block with
    | some lb => lb.time + 1
    | none =>
      match s.rs.proposal_block with
      | some pb => pb.time + 1
      | none => s.now
  if s.now > min_vote_time then s.now else min_vote_time

/-- `consensus_state::sign_vote` (the actual signature is a stub in the
source; the vote is returned unsigned). -/
def sign_vote (mt : signed_msg_type) (h : bytes) (hdr : part_set_header) (s : cs_state) :
    Option vote :=
  if s.local_priv_validator_pub_key.empty_key then none
  else
    let addr := s.local_priv_validator_pub_key.address
    let idx := s.rs.validators.get_index_by_address addr
    if idx < 0 then none
    else some { type_ := mt, height := s.rs.height, round := s.rs.round,
                block_id_ := ⟨h, hdr⟩, timestamp := vote_time s,
                validator_address := addr, validator_index := idx }

/-- `consensus_state::sign_add_vote`: the call itself is recorded in
`signed_calls`; a successfully signed vote is published on the internal
queue.  The early returns of the source (no private validator, empty public
key, not a validator, signing failed) all skip only the publication, so they
are folded into the `voteOpt` computation. -/
def sign_add_vote (mt : signed_msg_type) (h : bytes) (hdr : part_set_header) (s : cs_state) :
    cs_state :=
  let ok := s.local_priv_validator.isSome && !s.local_priv_validator_pub_key.empty_key &&
    s.rs.validators.has_address s.local_priv_validator_pub_key.address
  let voteOpt := if ok then sign_vote mt h hdr s else none
  { s with
      signed_calls := s.signed_calls ++ [(mt, h, hdr)],
      outbox := s.outbox ++ (match voteOpt with | some v => [out_msg.vote_out v] | none => []) }

/-- The reset block of `consensus_state::update_to_state` (lines 186-240):
the round state fields for the next height. -/
def update_to_state_reset (st : state) (lc : Option vote_set) (s : cs_state) : cs_state :=
  let height := if st.last_block_height + 1 = 1 then st.initial_height
                else st.last_block_height + 1
  let rs2 := { s.rs with
      height := height, round := 0, step := .NewHeight,
      proposal := none, proposal_block := none, proposal_block_parts := none,
      locked_round := -1, locked_block := none, locked_block_parts := none,
      valid_round := -1, valid_block := none, valid_block_parts := none,
      votes := height_vote_set.new_height_vote_set height st.validators,
      commit_round := -1, last_validators := st.last_validators,
      last_commit := lc, triggered_timeout_precommit := false }
  new_step { s with
      rs := rs2,
      local_state := st }

/-- `consensus_state::update_to_state` (lines 154-240): height/round/step
reset for the next height.  The three consistency throws, the
ignore-and-return path for a state that is not further out, and the
`last_commit` selection are all modelled; `rs.votes` is always non-null in
the embedding.  The `start_time` update is a todo in the source and is not
modelled. -/
def update_to_state (st : state) (s : cs_state) : cs_state :=
  if s.rs.commit_round > -1 ∧ 0 < s.rs.height ∧ s.rs.height ≠ st.last_block_height then
    throw_err s (.invariant "update_to_state unexpected state height")
  else if ¬ s.local_state.is_empty ∧ s.local_state.last_block_height > 0 ∧
      s.local_state.last_block_height + 1 ≠ s.rs.height then
    throw_err s (.invariant "inconsistent last_block_height plus one")
  else if ¬ s.local_state.is_empty ∧ s.local_state.last_block_height > 0 ∧
      s.rs.height = s.local_state.initial_height then
    throw_err s (.invariant "inconsistent last_block_height for initial height")
  else if ¬ s.local_state.is_empty ∧ st.last_block_height ≤ s.local_state.last_block_height then
    new_step s
  else
    let s := { s with rs := { s.rs with validators := st.validators } }
    let lc_result : Except cs_error (Option vote_set) :=
      if st.last_block_height = 0 then .ok none
      else if s.rs.commit_round > -1 then
        if (s.rs.votes.precommit_sets s.rs.commit_round).has_maj23 then
          .ok (some (s.rs.votes.precommit_sets s.rs.commit_round))
        else .error (.invariant "wanted to form a commit but precommits lack two thirds")
      else if s.rs.last_commit.isSome then .ok s.rs.last_commit
      else .error (.invariant "last commit cannot be empty after initial block")
    match lc_result with
    | .error e => throw_err s e
    | .ok lc => update_to_state_reset st lc s

/-- `consensus_state::finalize_commit` (lines 769-814); applying the block
is a todo in the source, so the state handed to `update_to_state` is the
unchanged `local_state`. -/
def finalize_commit (height : Int) (s : cs_state) : cs_state :=
  if s.rs.height ≠ height ∨ s.rs.step ≠ .Commit then s
  else
    match (s.rs.votes.precommit_sets s.rs.commit_round).maj23 with
    | none => throw_err s (.invariant "cannot finalize commit without two thirds majority")
    | some bid =>
      match s.rs.proposal_block_parts with
      | none => throw_err s (.empty_optional "proposal_block_parts")
      | some bp =>
        if ¬ bp.has_header bid.parts then
          throw_err s (.invariant "expected proposal block parts header to be commit header")
        else
          match s.rs.proposal_block with
          | none => throw_err s (.empty_optional "proposal_block")
          | some b =>
            if ¬ b.hashes_to bid.hash then
              throw_err s (.invariant "proposal block does not hash to commit hash")
            else
              let s := update_to_state s.local_state s
              if s.error.isSome then s
              else schedule_round_0 (update_priv_validator_pub_key s)

/-- `consensus_state::try_finalize_commit` (lines 752-767). -/
def try_finalize_commit (height : Int) (s : cs_state) : cs_state :=
  if s.rs.height ≠ height then
    throw_err s (.invariant "try_finalize_commit height mismatch")
  else
    match (s.rs.votes.precommit_sets s.rs.commit_round).maj23 with
    | none => s
    | some bid =>
      if bid.hash = [] then s
      else
        match s.rs.proposal_block with
        | none => throw_err s (.empty_optional "proposal_block")
        | some pb =>
          if ¬ pb.hashes_to bid.hash then s
          else finalize_commit height s

/-- `consensus_state::is_proposal_complete` (lines 437-445). -/
def is_proposal_complete (s : cs_state) : Bool :=
  match s.rs.proposal, s.rs.proposal_block with
  | some p, some _ =>
    if p.pol_round < 0 then true
    else (s.rs.votes.prevote_sets p.pol_round).has_maj23
  | _, _ => false

/-- `consensus_state::is_proposal` (lines 447-449). -/
def is_proposal (address : bytes) (s : cs_state) : Bool :=
  s.rs.validators.proposer_addr == address

/-- `consensus_state::do_prevote` (lines 541-561): prevote the locked block,
else nil when there is no proposal block, else the proposal block. -/
def do_prevote (s : cs_state) : cs_state :=
  match s.rs.locked_block with
  | some lb =>
    match s.rs.locked_block_parts with
    | none => throw_err s (.empty_optional "locked_block_parts")
    | some lbp => sign_add_vote .Prevote lb.hash lbp.header_ s
  | none =>
    match s.rs.proposal_block with
    | none => sign_add_vote .Prevote [] psh_zero s
    | some pb =>
      match s.rs.proposal_block_parts with
      | none => throw_err s (.empty_optional "proposal_block_parts")
      | some pbp => sign_add_vote .Prevote pb.hash pbp.header_ s

/-- `consensus_state::enter_prevote` (lines 522-539). -/
def enter_prevote (height round : Int) (s : cs_state) : cs_state :=
  if s.rs.height ≠ height ∨ round < s.rs.round ∨
      (s.rs.round = round ∧ round_step_type.Prevote.val ≤ s.rs.step.val) then s
  else
    with_defer (fun t => do_prevote t)
      (fun t => new_step (update_round_step round .Prevote t)) s

/-- `consensus_state::enter_prevote_wait` (lines 563-583).  Note the guard at
line 569 throws when `has_two_thirds_any()` IS true, while its message (and
the spec) say the opposite; the embedding mirrors the code. -/
def enter_prevote_wait (height round : Int) (s : cs_state) : cs_state :=
  if s.rs.height ≠ height ∨ round < s.rs.round ∨
      (s.rs.round = round ∧ round_step_type.PrevoteWait.val ≤ s.rs.step.val) then s
  else if (s.rs.votes.prevote_sets round).any23 then
    throw_err s (.invariant "entering prevote_wait step but prevotes do not have any two thirds votes")
  else
    with_defer
      (fun t => schedule_timeout (t.cs_config.prevote round) height round .PrevoteWait t)
      (fun t => new_step (update_round_step round .PrevoteWait t)) s

/-- `consensus_state::enter_precommit` (lines 591-679): the polka case
analysis, including the `pol_info()` consistency throw at line 621 and the
unguarded dereferences of `locked_block`, `proposal_block` and
`proposal_block_parts`. -/
def enter_precommit (height round : Int) (s : cs_state) : cs_state :=
  if s.rs.height ≠ height ∨ round < s.rs.round ∨
      (s.rs.round = round ∧ round_step_type.Precommit.val ≤ s.rs.step.val) then s
  else
    with_defer (fun t =>
      match (t.rs.votes.prevote_sets round).maj23 with
      | none => sign_add_vote .Precommit [] psh_zero t
      | some bid =>
        if t.rs.votes.pol_round < round then
          throw_err t (.invariant "pol_round should be this round")
        else if bid.hash = [] then
          let t :=
            match t.rs.locked_block with
            | none => t
            | some _ => { t with
                rs := { t.rs with
                    locked_round := -1,
                    locked_block := none, locked_block_parts := none } }
          sign_add_vote .Precommit [] psh_zero t
        else
          match t.rs.locked_block with
          | none => throw_err t (.empty_optional "locked_block")
          | some lb =>
            if lb.hashes_to bid.hash then
              sign_add_vote .Precommit bid.hash bid.parts
                { t with rs := { t.rs with locked_round := round } }
            else
              match t.rs.proposal_block with
              | none => throw_err t (.empty_optional "proposal_block")
              | some pb =>
                if pb.hashes_to bid.hash then
                  sign_add_vote .Precommit bid.hash bid.parts
                    { t with
                        rs := { t.rs with
                            locked_round := round,
                            locked_block := some pb,
                            locked_block_parts := t.rs.proposal_block_parts } }
                else
                  let t := { t with
                      rs := { t.rs with
                          locked_round := -1,
                          locked_block := none, locked_block_parts := none } }
                  match t.rs.proposal_block_parts with
                  | none => throw_err t (.empty_optional "proposal_block_parts")
                  | some pp =>
                    let t :=
                      if pp.has_header bid.parts then t
                      else { t with
                          rs := { t.rs with
                              proposal_block := none,
                              proposal_block_parts :=
                            some (part_set.new_part_set_from_header bid.parts) } }
                    sign_add_vote .Precommit [] psh_zero t)
      (fun t => new_step (update_round_step round .Precommit t)) s

/-- `consensus_state::enter_precommit_wait` (lines 684-705).  As with
`enter_prevote_wait`, the throw guard at line 691 is inverted with respect
to its own message and the spec; the embedding mirrors the code. -/
def enter_precommit_wait (height round : Int) (s : cs_state) : cs_state :=
  if s.rs.height ≠ height ∨ round < s.rs.round ∨
      (s.rs.round = round ∧ s.rs.triggered_timeout_precommit) then s
  else if (s.rs.votes.precommit_sets round).any23 then
    throw_err s (.invariant "entering precommit_wait step but precommits do not have any two thirds votes")
  else
    with_defer
      (fun t => schedule_timeout (t.cs_config.precommit round) height round .PrecommitWait t)
      (fun t => new_step { t with rs := { t.rs with triggered_timeout_precommit := true } }) s

/-- `consensus_state::enter_commit` (lines 707-750): the deferred block sets
round/step/commit_round/commit_time and calls `try_finalize_commit` even
when the body throws. -/
def enter_commit (height round : Int) (s : cs_state) : cs_state :=
  if s.rs.height ≠ height ∨ round_step_type.Commit.val ≤ s.rs.step.val then s
  else
    with_defer (fun t =>
      match (t.rs.votes.precommit_sets round).maj23 with
      | none => throw_err t (.invariant "enter_commit expects two thirds precommits")
      | some bid =>
        let t :=
          match t.rs.locked_block with
          | none => throw_err t (.empty_optional "locked_block")
          | some lb =>
            if lb.hashes_to bid.hash then
              { t with
                  rs := { t.rs with
                      proposal_block := t.rs.locked_block,
                      proposal_block_parts := t.rs.locked_block_parts } }
            else t
        if t.error.isSome then t
        else
          match t.rs.proposal_block with
          | none => throw_err t (.empty_optional "proposal_block")
          | some pb =>
            if ¬ pb.hashes_to bid.hash then
              match t.rs.proposal_block_parts with
              | none => throw_err t (.empty_optional "proposal_block_parts")
              | some pp =>
                if ¬ pp.has_header bid.parts then
                  { t with
                      rs := { t.rs with
                          proposal_block := none,
                          proposal_block_parts :=
                        some (part_set.new_part_set_from_header bid.parts) } }
                else t
            else t)
      (fun t =>
        let t := update_round_step round .Commit t
        let t := { t with rs := { t.rs with commit_round := round, commit_time := t.now } }
        let t := new_step t
        try_finalize_commit height t) s

/-- `consensus_state::decide_proposal` (lines 451-516): re-propose the valid
block if set; block creation from the mempool is a stub in the source, so
the other branch always returns after its checks.  Note the source publishes
the proposal again instead of each block-part message (line 510). -/
def decide_proposal (height round : Int) (s : cs_state) : cs_state :=
  match s.rs.valid_block with
  | some vb =>
    match s.rs.valid_block_parts with
    | none => throw_err s (.empty_optional "valid_block_parts")
    | some vbp =>
      let prop_block_id : block_id := ⟨vb.hash, vbp.header_⟩
      let proposal_ : proposal_msg :=
        { height := height, round := round, pol_round := s.rs.valid_round,
          block_id_ := prop_block_id }
      { s with outbox := s.outbox ++ [out_msg.proposal_out proposal_] ++
          List.replicate vbp.total (out_msg.proposal_out proposal_) }
  | none =>
    match s.local_priv_validator with
    | none => throw_err s (.invariant "attempted to create proposal block with empty priv_validator")
    | some _ =>
      if s.rs.height = s.local_state.initial_height then s
      else
        match s.rs.last_commit with
        | none => throw_err s (.empty_optional "last_commit")
        | some lc =>
          if lc.has_maj23 then s
          else s

/-- `consensus_state::enter_propose` (lines 387-432): schedule the propose
timeout, then decide a proposal when this node is the proposer; the deferred
block advances to Propose and, when the proposal is complete, enters
prevote. -/
def enter_propose (height round : Int) (s : cs_state) : cs_state :=
  if s.rs.height ≠ height ∨ round < s.rs.round ∨
      (s.rs.round = round ∧ round_step_type.Propose.val ≤ s.rs.step.val) then s
  else
    with_defer (fun t =>
      let t := schedule_timeout (t.cs_config.propose round) height round .Propose t
      match t.local_priv_validator with
      | none => t
      | some _ =>
        if t.local_priv_validator_pub_key.empty_key then t
        else
          let address := t.local_priv_validator_pub_key.address
          if ¬ t.rs.validators.has_address address then t
          else if is_proposal address t then decide_proposal height round t
          else t)
      (fun t =>
        let t := new_step (update_round_step round .Propose t)
        if is_proposal_complete t then enter_prevote height t.rs.round t else t) s

/-- `consensus_state::enter_new_round` (lines 342-385). -/
def enter_new_round (height round : Int) (s : cs_state) : cs_state :=
  if s.rs.height ≠ height ∨ round < s.rs.round ∨
      (s.rs.round = round ∧ s.rs.step ≠ .NewHeight) then s
  else
    let vals := if s.rs.round < round then
        s.rs.validators.increment_proposer_priority (round - s.rs.round)
      else s.rs.validators
    let s := update_round_step round .NewRound s
    let s := { s with rs := { s.rs with validators := vals } }
    let s := if round = 0 then s
      else { s with
          rs := { s.rs with
              proposal := none, proposal_block := none,
              proposal_block_parts := none } }
    let s := { s with
        rs := { s.rs with
            votes := s.rs.votes.set_round (round + 1),
            triggered_timeout_precommit := false } }
    enter_propose height round s

/-- `consensus_state::handle_timeout` (lines 308-340): drop a stale
`timeout_info`, otherwise dispatch on its step; an unexpected step throws. -/
def handle_timeout (ti : timeout_info) (s : cs_state) : cs_state :=
  if ti.height ≠ s.rs.height ∨ ti.round < s.rs.round ∨
      (ti.round = s.rs.round ∧ ti.step.val < s.rs.step.val) then s
  else
    match ti.step with
    | .NewHeight => enter_new_round ti.height 0 s
    | .NewRound => enter_propose ti.height 0 s
    | .Propose => enter_prevote ti.height ti.round s
    | .PrevoteWait => enter_precommit ti.height ti.round s
    | .PrecommitWait =>
      let s1 := enter_precommit ti.height ti.round s
      if s1.error.isSome then s1 else enter_new_round ti.height (ti.round + 1) s1
    | _ => throw_err s (.invariant "invalid timeout step")

/-- `consensus_state::set_proposal` (lines 816-846), including the inverted
early-return guard at line 817 (the source returns when `rs.proposal` is
NOT yet set). -/
def set_proposal (msg : proposal_msg) (s : cs_state) : cs_state :=
  if s.rs.proposal.isNone then s
  else if msg.height ≠ s.rs.height ∨ msg.round ≠ s.rs.round then s
  else if msg.pol_round < -1 ∨ (0 ≤ msg.pol_round ∧ msg.round ≤ msg.pol_round) then s
  else
    let s := { s with rs := { s.rs with proposal := some msg } }
    if s.rs.proposal_block_parts.isNone then
      { s with
          rs := { s.rs with
              proposal_block_parts :=
                some (part_set.new_part_set_from_header msg.block_id_.parts) } }
    else s

/-- `consensus_state::add_vote` (lines 924-1063): the previous-height
precommit path, the height filter, and the prevote/precommit transition
logic.  Returns the state together with the C++ boolean result. -/
def add_vote (v : vote) (s : cs_state) : cs_state × Bool :=
  if v.height + 1 = s.rs.height ∧ v.type_ = signed_msg_type.Precommit then
    if s.rs.step ≠ round_step_type.NewHeight then (s, false)
    else
      match s.rs.last_commit with
      | none => (throw_err s (.empty_optional "last_commit"), false)
      | some lc =>
        let p := lc.add_vote_set v
        let s1 : cs_state := { s with rs := { s.rs with last_commit := some p.1 } }
        if p.2 then
          if s1.cs_config.skip_timeout_commit && p.1.has_all then
            (enter_new_round s1.rs.height 0 s1, false)
          else (s1, false)
        else (s1, false)
  else if v.height ≠ s.rs.height then (s, false)
  else
    let height := s.rs.height
    let pa := s.rs.votes.add_vote v
    if ¬ pa.2 then (s, false)
    else
      let s := { s with rs := { s.rs with votes := pa.1 } }
      match v.type_ with
      | .Prevote =>
        let prevotes := s.rs.votes.prevote_sets v.round
        let step1 : cs_state :=
          match prevotes.maj23 with
          | none => s
          | some bid =>
            let s :=
              if s.rs.locked_block.isSome ∧ s.rs.locked_round < v.round ∧
                  v.round ≤ s.rs.round ∧
                  ¬ ((s.rs.locked_block.getD ⟨[], 0⟩).hashes_to bid.hash) then
                { s with
                    rs := { s.rs with
                        locked_round := -1, locked_block := none,
                        locked_block_parts := none } }
              else s
            if bid.hash ≠ [] ∧ s.rs.valid_round < v.round ∧ v.round = s.rs.round then
              match s.rs.proposal_block with
              | none => throw_err s (.empty_optional "proposal_block")
              | some pb =>
                let s :=
                  if pb.hashes_to bid.hash then
                    { s with
                        rs := { s.rs with
                            valid_round := v.round,
                            valid_block := s.rs.proposal_block,
                            valid_block_parts := s.rs.proposal_block_parts } }
                  else { s with rs := { s.rs with proposal_block := none } }
                match s.rs.proposal_block_parts with
                | none => throw_err s (.empty_optional "proposal_block_parts")
                | some pp =>
                  if ¬ pp.has_header bid.parts then
                    { s with
                        rs := { s.rs with
                            proposal_block_parts :=
                              some (part_set.new_part_set_from_header bid.parts) } }
                  else s
            else s
        if step1.error.isSome then (step1, true)
        else
          let s := step1
          if s.rs.round < v.round ∧ prevotes.any23 = true then
            (enter_new_round height v.round s, true)
          else if s.rs.round = v.round ∧ round_step_type.Prevote.val ≤ s.rs.step.val then
            match prevotes.maj23 with
            | some bid =>
              if is_proposal_complete s || bid.hash == [] then
                (enter_precommit height v.round s, true)
              else if prevotes.any23 then (enter_prevote_wait height v.round s, true)
              else (s, true)
            | none =>
              if prevotes.any23 then (enter_prevote_wait height v.round s, true)
              else (s, true)
          else
            match s.rs.proposal with
            | some prop =>
              if 0 ≤ prop.pol_round ∧ prop.pol_round = v.round then
                if is_proposal_complete s then (enter_prevote height s.rs.round s, true)
                else (s, true)
              else (s, true)
            | none => (s, true)
      | .Precommit =>
        let precommits := s.rs.votes.precommit_sets v.round
        match precommits.maj23 with
        | some bid =>
          let s := enter_new_round height v.round s
          let s := if s.error.isSome then s else enter_precommit height v.round s
          if s.error.isSome then (s, true)
          else if bid.hash ≠ [] then
            let s := enter_commit height v.round s
            if s.error.isSome then (s, true)
            else if s.cs_config.skip_timeout_commit && precommits.has_all then
              (enter_new_round s.rs.height 0 s, true)
            else (s, true)
          else (enter_precommit_wait height v.round s, true)
        | none =>
          if s.rs.round ≤ v.round ∧ precommits.any23 = true then
            let s := enter_new_round height v.round s
            if s.error.isSome then (s, true)
            else (enter_precommit_wait height v.round s, true)
          else (s, true)
      | .Unknown => (throw_err s (.invariant "unexpected vote type"), true)

/-- The timeout-ticker state: the stored `old_ti`, the number of timer
cancellations performed, and the trace of armed timers. -/
structure ticker_state where
  old_ti : timeout_info
  cancel_count : Nat
  armed : List timeout_info
deriving DecidableEq

/-- `consensus_state::tick` (lines 271-301): ignore a `timeout_info` that is
behind the stored one (the step test additionally requires the stored step
to be non-zero, mirroring the default-initialized `timeout_info{}`);
otherwise cancel the pending timer, store the new `timeout_info` and arm the
timer. -/
def tick (ts : ticker_state) (ti : timeout_info) : ticker_state :=
  if ti.height < ts.old_ti.height then ts
  else if ti.height = ts.old_ti.height ∧ ti.round < ts.old_ti.round then ts
  else if ti.height = ts.old_ti.height ∧ ti.round = ts.old_ti.round ∧
      ts.old_ti.step.val > 0 ∧ ti.step.val ≤ ts.old_ti.step.val then ts
  else
    { old_ti := ti, cancel_count := ts.cancel_count + 1, armed := ts.armed ++ [ti] }

/-- The combined ignore condition of `tick`: the three nested guards of the
source as one predicate. -/
def tick_stale (old ti : timeout_info) : Prop :=
  ti.height < old.height ∨
    (ti.height = old.height ∧ ti.round < old.round) ∨
    (ti.height = old.height ∧ ti.round = old.round ∧
      old.step.val > 0 ∧ ti.step.val ≤ old.step.val)

instance (old ti : timeout_info) : Decidable (tick_stale old ti) := by
  unfold tick_stale
  infer_instance

/-- Strict lexicographic order on `timeout_info` by (height, round, step). -/
def ti_lex_lt (a b : timeout_info) : Prop :=
  a.height < b.height ∨
    (a.height = b.height ∧
      (a.round < b.round ∨ (a.round = b.round ∧ a.step.val < b.step.val)))

instance (a b : timeout_info) : Decidable (ti_lex_lt a b) := by
  unfold ti_lex_lt
  infer_instance

/-!  State store (`db_store`, from the unnamed header): key encoding,
validator-info records, and validator-set loading.  The scale codec is not
part of the sources; records are modelled directly and the backing database
as a partial map from keys to records. -/

/-- The byte of a single hexadecimal digit as produced by `fmt` (lowercase
letters). -/
def hexDigitByte (n : Nat) : Nat := if n < 10 then 48 + n else 87 + n

/-- Numeric value of a hexadecimal digit byte. -/
def hexByteVal (b : Nat) : Nat := if 97 ≤ b then b - 87 else b - 48

/-- Little-endian hexadecimal digits of a natural number (fuel-based so that
it reduces definitionally; 64 digits cover every `int64_t`). -/
def hexLEAux : Nat → Nat → List Nat
  | 0, _ => []
  | fuel + 1, n => if n < 16 then [n] else n % 16 :: hexLEAux fuel (n / 16)

/-- Big-endian hexadecimal digits of a natural number. -/
def hexDigitsOf (n : Nat) : List Nat := (hexLEAux 64 n).reverse

/-- `fmt::format` with the format `08x`: lowercase hexadecimal, zero-padded
to a minimum width of eight digits. -/
def fmt08x (n : Nat) : List Nat :=
  let ds := (hexDigitsOf n).map hexDigitByte
  List.replicate (8 - ds.length) 48 ++ ds

/-- Value parsed back from a big-endian string of hexadecimal digit bytes. -/
def hexVal (ds : List Nat) : Nat := ds.foldl (fun a b => 16 * a + hexByteVal b) 0

/-- Value of a little-endian hexadecimal digit list. -/
def ofLE : List Nat → Nat
  | [] => 0
  | d :: ds => d + 16 * ofLE ds

/-- `db_store::prefix::validators`. -/
def pfx_validators : Nat := 5

/-- `db_store::encode_key`: the prefix byte followed by the `08x`-formatted
height (faithful for non-negative heights). -/
def encode_key (p : Nat) (height : Int) : List Nat := p :: fmt08x height.toNat

/-- `db_store::validators_info`. -/
structure validators_info where
  last_height_changed : Int
  v_set : Option validator_set
deriving DecidableEq

/-- `val_set_checkpoint_interval`. -/
def val_set_checkpoint_interval : Int := 100000

/-- The `static_cast<int32_t>` applied to the proposer-priority increment in
`db_store::load_validators`. -/
def toInt32 (n : Int) : Int := (n + 2 ^ 31) % 2 ^ 32 - 2 ^ 31

/-- `db_store::save_validators_info`: `none` models the `false` return when
`last_height_changed > height`; otherwise the key/record pair written to the
batch is returned.  The full validator set is stored exactly at
heights equal to `last_height_changed` or multiples of the checkpoint
interval. -/
def save_validators_info (height last_height_changed : Int) (v_set : validator_set) :
    Option (List Nat × validators_info) :=
  if last_height_changed > height then none
  else
    some (encode_key pfx_validators height,
      { last_height_changed := last_height_changed,
        v_set := if height = last_height_changed ∨ height % val_set_checkpoint_interval = 0
          then some v_set else none })

/-- `db_store::last_stored_height_for`. -/
def last_stored_height_for (height last_height_changed : Int) : Int :=
  max (height - height % val_set_checkpoint_interval) last_height_changed

/-- `db_store::load_validators` over an abstract database map: load the
record at `height`; when it only carries the back-pointer, reload at the
last stored height and replay the proposer-priority increments. -/
def load_validators (dbm : List Nat → Option validators_info) (height : Int) :
    Option validator_set :=
  match dbm (encode_key pfx_validators height) with
  | none => none
  | some v_info =>
    match v_info.v_set with
    | some vs => some vs
    | none =>
      let last_stored_height := last_stored_height_for height v_info.last_height_changed
      match dbm (encode_key pfx_validators last_stored_height) with
      | none => none
      | some v_info2 =>
        match v_info2.v_set with
        | none => none
        | some vs2 =>
          some (vs2.increment_proposer_priority (toInt32 (height - v_info2.last_height_changed)))

/-! Concrete states used to evaluate the embedded code on explicit inputs. -/

/-- An empty validator set. -/
def vs0 : validator_set := { addrs := [], proposer_addr := [], accumulated := 0 }

/-- A concrete configuration (timeouts in abstract units,
`skip_timeout_commit` off). -/
def cfg0 : consensus_config :=
  { timeout_propose := 3000, timeout_propose_delta := 500,
    timeout_prevote := 1000, timeout_prevote_delta := 500,
    timeout_precommit := 1000, timeout_precommit_delta := 500,
    timeout_commit := 1000, skip_timeout_commit := false }

/-- A default-constructed local state. -/
def st0 : state :=
  { initial_height := 1, last_block_height := 0, validators := vs0,
    last_validators := vs0, empty_ := true }

/-- Fresh vote tables for height 1. -/
def hvs0 : height_vote_set := height_vote_set.new_height_vote_set 1 vs0

/-- A round state at height 1, round 0, step NewHeight with all optionals
absent. -/
def rs0 : round_state :=
  { height := 1, round := 0, step := .NewHeight, start_time := 0,
    proposal := none, proposal_block := none, proposal_block_parts := none,
    locked_round := -1, locked_block := none, locked_block_parts := none,
    valid_round := -1, valid_block := none, valid_block_parts := none,
    votes := hvs0, commit_round := -1, commit_time := 0, last_commit := none,
    validators := vs0, last_validators := vs0, triggered_timeout_precommit := false }

/-- The base consensus state for concrete evaluations. -/
def cs0 : cs_state :=
  { rs := rs0, cs_config := cfg0, local_state := st0,
    local_priv_validator := none, local_priv_validator_pub_key := ⟨[]⟩,
    now := 0, timeouts := [], outbox := [], signed_calls := [],
    error := none, n_steps := 0 }

/-- A non-nil part-set header. -/
def psh1 : part_set_header := ⟨2, [7]⟩

/-- A block with hash `[1]`. -/
def b1 : block := { hash := [1], time := 0 }

/-- A block with hash `[2]`. -/
def b2 : block := { hash := [2], time := 0 }

/-- A part set carrying header `psh1`. -/
def ps1 : part_set := { total := 2, header_ := psh1 }

/-- A proposal message matching height 1, round 0, with `pol_round = -1`. -/
def msg1 : proposal_msg := { height := 1, round := 0, pol_round := -1, block_id_ := ⟨[1], psh1⟩ }

/-- A distinct proposal already stored in the round state. -/
def p0 : proposal_msg := { height := 1, round := 0, pol_round := -1, block_id_ := ⟨[9], psh1⟩ }

/-- `cs0` with a proposal already set. -/
def cs1 : cs_state := { cs0 with rs := { rs0 with proposal := some p0 } }

/-- An empty vote set for height 1 whose `has_two_thirds_any` is true. -/
def vset_any : vote_set := { vote_set.new_empty 1 0 with any23 := true }

/-- Vote tables whose prevote sets all answer `has_two_thirds_any = true`. -/
def hvs_pv_any : height_vote_set := { hvs0 with prevote_sets := fun _ => vset_any }

/-- Vote tables whose precommit sets all answer `has_two_thirds_any = true`. -/
def hvs_pc_any : height_vote_set := { hvs0 with precommit_sets := fun _ => vset_any }

/-- Height 1, round 0, step Prevote, with a 2/3-any prevote tally. -/
def c2a : cs_state := { cs0 with rs := { rs0 with step := .Prevote, votes := hvs_pv_any } }

/-- Height 1, round 0, step Precommit, 2/3-any precommit tally,
`triggered_timeout_precommit` false. -/
def c2b : cs_state := { cs0 with rs := { rs0 with step := .Precommit, votes := hvs_pc_any } }

/-- Height 1, round 0, step Prevote, no 2/3-any prevote tally. -/
def c2c : cs_state := { cs0 with rs := { rs0 with step := .Prevote } }

/-- A vote set answering a two-thirds majority for the nil block id. -/
def vset_majnil : vote_set := { vote_set.new_empty 1 0 with maj23 := some ⟨[], psh1⟩ }

/-- Vote tables with a nil prevote majority and no recorded polka round. -/
def hvs_majnil : height_vote_set := { hvs0 with prevote_sets := fun _ => vset_majnil }

/-- Step Prevote, locked on `b1` at round 0, nil prevote majority,
`pol_info() = -1`. -/
def c3x : cs_state :=
  { cs0 with rs := { rs0 with
      step := .Prevote, locked_round := 0, locked_block := some b1,
      locked_block_parts := some ps1, votes := hvs_majnil } }

/-- A vote set answering a two-thirds majority for block id `([1], psh1)`. -/
def vset_majb1 : vote_set := { vote_set.new_empty 1 0 with maj23 := some ⟨[1], psh1⟩ }

/-- Vote tables with a prevote majority for `([1], psh1)` and polka round 0. -/
def hvs_pv_majb1 : height_vote_set :=
  { hvs0 with prevote_sets := fun _ => vset_majb1, pol_round := 0 }

/-- Vote tables with a precommit majority for `([1], psh1)`. -/
def hvs_pc_majb1 : height_vote_set := { hvs0 with precommit_sets := fun _ => vset_majb1 }

/-- Step Prevote with a non-nil prevote majority and no locked block: the
state in which `enter_precommit` dereferences the empty `locked_block`. -/
def c9a : cs_state := { cs0 with rs := { rs0 with step := .Prevote, votes := hvs_pv_majb1 } }

/-- Step Prevote with a non-nil precommit majority and no locked block: the
state in which `enter_commit` dereferences the empty `locked_block`. -/
def c9b : cs_state := { cs0 with rs := { rs0 with step := .Prevote, votes := hvs_pc_majb1 } }

/-- Vote tables with a nil-hash precommit majority. -/
def hvs_pc_majnil : height_vote_set := { hvs0 with precommit_sets := fun _ => vset_majnil }

/-- Step Prevote, nil-hash precommit majority, locked on `b1`, proposal
block `b2` with parts matching the majority header: `enter_commit` raises no
error here. -/
def c6x : cs_state :=
  { cs0 with rs := { rs0 with
      step := .Prevote, locked_round := 0, locked_block := some b1,
      locked_block_parts := some ps1, proposal_block := some b2,
      proposal_block_parts := some ps1, votes := hvs_pc_majnil } }

/-- Step Prevote with no precommit majority at all (fresh tables). -/
def c6w : cs_state := { cs0 with rs := { rs0 with step := .Prevote } }

/-- A state that is further out than the (empty) stored local state. -/
def st_new : state :=
  { initial_height := 1, last_block_height := 0, validators := vs0,
    last_validators := vs0, empty_ := false }

/-- A ticker state. -/
def ts5 : ticker_state := { old_ti := ⟨0, 1, 0, .NewHeight⟩, cancel_count := 0, armed := [] }

/-- The newer timeout. -/
def ti_new5 : timeout_info := ⟨0, 1, 0, .Propose⟩

/-- The older (stale) timeout. -/
def ti_old5 : timeout_info := ⟨0, 1, 0, .NewRound⟩

/-- A timeout strictly ahead of `cs0` (height 2 vs height 1). -/
def ti4 : timeout_info := ⟨0, 2, 0, .NewHeight⟩

/-- A timeout matching `cs0` exactly (height 1, round 0, NewHeight). -/
def ti4w : timeout_info := ⟨0, 1, 0, .NewHeight⟩

/-- A last-commit vote set for height 0 expecting one voter. -/
def lc10 : vote_set := vote_set.new_empty 0 1

/-- `cs0` with a last commit installed (step NewHeight). -/
def w10s : cs_state := { cs0 with rs := { rs0 with last_commit := some lc10 } }

/-- A precommit for height 0 (one below `w10s`). -/
def v10 : vote :=
  { type_ := .Precommit, height := 0, round := 0, block_id_ := ⟨[1], psh1⟩,
    timestamp := 0, validator_address := [3], validator_index := 0 }

/-! Theorems.  Each claim of the specification audit is settled by exactly
one theorem below. -/

/-- C1: the early-return guard of `set_proposal` is inverted in the source.
Evaluating the embedded code: on a state with NO proposal and a fully
applicable message (matching height and round, `pol_round = -1`), the
message is dropped and the state is unchanged — the claimed behaviour is to
store it; and on a state whose proposal IS already set, the message
overwrites the stored proposal — the claimed behaviour is to ignore it. -/
theorem C1_set_proposal_inverted_guard :
    set_proposal msg1 cs0 = cs0 ∧
    (set_proposal msg1 cs1).rs.proposal = some msg1 ∧
    (set_proposal msg1 cs1).rs.proposal_block_parts =
      some (part_set.new_part_set_from_header msg1.block_id_.parts) := by
  refine ⟨rfl, rfl, rfl⟩

/-- C2: the `has_two_thirds_any` guards of `enter_prevote_wait` and
`enter_precommit_wait` are inverted in the source: with a 2/3-any tally the
functions throw (contradicting their own error messages and the spec),
leaving the step, the `triggered_timeout_precommit` flag, and the timeout
schedule untouched; without a 2/3-any tally they proceed, advance the state
and schedule the wait timeout. -/
theorem C2_wait_guards_inverted :
    (enter_prevote_wait 1 0 c2a).error.isSome = true ∧
    (enter_prevote_wait 1 0 c2a).rs.step = round_step_type.Prevote ∧
    (enter_prevote_wait 1 0 c2a).timeouts = [] ∧
    (enter_precommit_wait 1 0 c2b).error.isSome = true ∧
    (enter_precommit_wait 1 0 c2b).rs.triggered_timeout_precommit = false ∧
    (enter_precommit_wait 1 0 c2b).timeouts = [] ∧
    (enter_prevote_wait 1 0 c2c).error = none ∧
    (enter_prevote_wait 1 0 c2c).rs.step = round_step_type.PrevoteWait ∧
    (enter_prevote_wait 1 0 c2c).timeouts = [⟨1000, 1, 0, .PrevoteWait⟩] := by
  refine ⟨rfl, rfl, rfl, rfl, rfl, rfl, rfl, rfl, rfl⟩

/-- C9: the optional fields are NOT always present where dereferenced: in a
reachable state with a non-nil 2/3 prevote majority and no locked block
(the ordinary first-lock situation of the spec's happy path),
`enter_precommit` dereferences the empty `locked_block` optional; likewise
`enter_commit` with a 2/3 precommit majority and no locked block. -/
theorem C9_empty_optional_deref :
    (enter_precommit 1 0 c9a).error = some (.empty_optional "locked_block") ∧
    (enter_commit 1 0 c9b).error = some (.empty_optional "locked_block") := by
  refine ⟨rfl, rfl⟩

/-- Every consensus step has a positive numeric value. -/
theorem round_step_type.one_le_val (st : round_step_type) : 1 ≤ st.val := by
  cases st <;> simp [round_step_type.val]

/-- `tick` as a single guarded update. -/
theorem tick_eq (ts : ticker_state) (ti : timeout_info) :
    tick ts ti = if tick_stale ts.old_ti ti then ts
      else { old_ti := ti, cancel_count := ts.cancel_count + 1, armed := ts.armed ++ [ti] } := by
  unfold tick tick_stale
  split_ifs <;> first | rfl | (exfalso; omega)

/-- Staleness is inherited downwards along the lexicographic order. -/
theorem tick_stale_mono {old ti_old ti_new : timeout_info}
    (hst : tick_stale old ti_new) (hlt : ti_lex_lt ti_old ti_new) :
    tick_stale old ti_old := by
  unfold tick_stale ti_lex_lt at *
  omega

/-- C5: scheduling an older `timeout_info` after a newer one is a no-op —
the whole ticker state (stored `old_ti`, cancellation count, armed-timer
trace) is unchanged by the second, lexicographically smaller `schedule`; and
after any `schedule(ti_new)` either the call was itself stale or the stored
`old_ti` is `ti_new`. -/
theorem C5_tick_stale_noop (ts : ticker_state) (ti_new ti_old : timeout_info)
    (h : ti_lex_lt ti_old ti_new) :
    tick (tick ts ti_new) ti_old = tick ts ti_new ∧
    (tick ts ti_new = ts ∨ (tick ts ti_new).old_ti = ti_new) := by
  have hv2 : 1 ≤ ti_new.step.val := round_step_type.one_le_val _
  by_cases hst : tick_stale ts.old_ti ti_new
  · have h1 : tick ts ti_new = ts := by rw [tick_eq, if_pos hst]
    have h2 : tick_stale ts.old_ti ti_old := tick_stale_mono hst h
    refine ⟨?_, Or.inl h1⟩
    rw [h1, tick_eq, if_pos h2]
  · have h1 : tick ts ti_new =
        { old_ti := ti_new, cancel_count := ts.cancel_count + 1,
          armed := ts.armed ++ [ti_new] } := by
      rw [tick_eq, if_neg hst]
    have h2 : tick_stale ti_new ti_old := by
      unfold tick_stale ti_lex_lt at *
      omega
    refine ⟨?_, Or.inr (by rw [h1])⟩
    rw [h1, tick_eq]
    simp only
    rw [if_pos h2]

/-- C5 witness: a concrete stale re-schedule (`NewRound` after `Propose` at
the same height and round) is dropped whole. -/
theorem C5_tick_stale_noop_witness :
    ti_lex_lt ti_old5 ti_new5 ∧
    tick (tick ts5 ti_new5) ti_old5 = tick ts5 ti_new5 := by
  refine ⟨by decide, (C5_tick_stale_noop ts5 ti_new5 ti_old5 (by decide)).1⟩

/-- C4 counterexample: a timeout for a FUTURE height — lexicographically
strictly ahead of `(rs.height, rs.round, rs.step)` — is also dropped without
dispatching, so "drops exactly when strictly behind" is false: the height
test in the source is an equality test, not an order test. -/
theorem C4_future_height_dropped :
    handle_timeout ti4 cs0 = cs0 ∧ cs0.rs.height < ti4.height :=
  ⟨rfl, by decide⟩

/-- C4 (amended): `handle_timeout(ti)` drops `ti` without dispatching
exactly when `ti.height ≠ rs.height`, or the height matches and
`(ti.round, ti.step)` is lexicographically strictly behind
`(rs.round, rs.step)`; otherwise it dispatches by `ti.step` — NewHeight to
`enter_new_round(ti.height, 0)`, NewRound to `enter_propose(ti.height, 0)`,
Propose to `enter_prevote`, PrevoteWait to `enter_precommit`, PrecommitWait
to `enter_precommit` followed (when no exception escaped) by
`enter_new_round(ti.height, ti.round + 1)` — and any other step raises a
fatal invariant error. -/
theorem C4_handle_timeout_amended (s : cs_state) (ti : timeout_info) :
    ((ti.height ≠ s.rs.height ∨ ti.round < s.rs.round ∨
        (ti.round = s.rs.round ∧ ti.step.val < s.rs.step.val)) →
      handle_timeout ti s = s) ∧
    (¬ (ti.height ≠ s.rs.height ∨ ti.round < s.rs.round ∨
        (ti.round = s.rs.round ∧ ti.step.val < s.rs.step.val)) →
      (ti.step = .NewHeight → handle_timeout ti s = enter_new_round ti.height 0 s) ∧
      (ti.step = .NewRound → handle_timeout ti s = enter_propose ti.height 0 s) ∧
      (ti.step = .Propose → handle_timeout ti s = enter_prevote ti.height ti.round s) ∧
      (ti.step = .PrevoteWait → handle_timeout ti s = enter_precommit ti.height ti.round s) ∧
      (ti.step = .PrecommitWait → handle_timeout ti s =
        (let s1 := enter_precommit ti.height ti.round s
         if s1.error.isSome then s1 else enter_new_round ti.height (ti.round + 1) s1)) ∧
      ((ti.step = .Prevote ∨ ti.step = .Precommit ∨ ti.step = .Commit) →
        handle_timeout ti s = throw_err s (.invariant "invalid timeout step"))) := by
  constructor
  · intro hdrop
    unfold handle_timeout
    rw [if_pos hdrop]
  · intro hnot
    refine ⟨?_, ?_, ?_, ?_, ?_, ?_⟩ <;> intro hstep
    · unfold handle_timeout; rw [if_neg hnot, hstep]
    · unfold handle_timeout; rw [if_neg hnot, hstep]
    · unfold handle_timeout; rw [if_neg hnot, hstep]
    · unfold handle_timeout; rw [if_neg hnot, hstep]
    · unfold handle_timeout; rw [if_neg hnot, hstep]
    · rcases hstep with hstep | hstep | hstep <;>
        (unfold handle_timeout; rw [if_neg hnot, hstep])

/-- C4 witness: a live `NewHeight` timeout at the current height dispatches
to `enter_new_round(height, 0)`. -/
theorem C4_handle_timeout_amended_witness :
    handle_timeout ti4w cs0 = enter_new_round ti4w.height 0 cs0 :=
  ((C4_handle_timeout_amended cs0 ti4w).2 (by decide)).1 rfl

/-- C10: a precommit for the previous height arriving at step NewHeight
makes `add_vote` return `false` in every subcase — when the vote is rejected
by the last-commit set, when it is appended, and when (under
`skip_timeout_commit` with a then-complete last commit) it triggers
`enter_new_round(rs.height, 0)`; the `false` is not an error signal. -/
theorem C10_add_vote_last_commit_false (s : cs_state) (v : vote) (lc : vote_set)
    (h1 : v.height + 1 = s.rs.height) (h2 : v.type_ = signed_msg_type.Precommit)
    (h3 : s.rs.step = round_step_type.NewHeight) (h4 : s.rs.last_commit = some lc) :
    (add_vote v s).2 = false ∧
    add_vote v s =
      (let p := lc.add_vote_set v
       let s1 : cs_state := { s with rs := { s.rs with last_commit := some p.1 } }
       if p.2 then
         if s1.cs_config.skip_timeout_commit && p.1.has_all then
           (enter_new_round s1.rs.height 0 s1, false)
         else (s1, false)
       else (s1, false)) := by
  have heq : add_vote v s =
      (let p := lc.add_vote_set v
       let s1 : cs_state := { s with rs := { s.rs with last_commit := some p.1 } }
       if p.2 then
         if s1.cs_config.skip_timeout_commit && p.1.has_all then
           (enter_new_round s1.rs.height 0 s1, false)
         else (s1, false)
       else (s1, false)) := by
    unfold add_vote
    rw [if_pos ⟨h1, h2⟩, if_neg (by simp [h3]), h4]
  refine ⟨?_, heq⟩
  rw [heq]
  simp only
  split_ifs <;> rfl

/-- C10 witness: a concrete previous-height precommit at step NewHeight is
appended to the last commit and still returns `false`. -/
theorem C10_add_vote_last_commit_false_witness :
    (add_vote v10 w10s).2 = false :=
  (C10_add_vote_last_commit_false w10s v10 lc10 (by decide) rfl rfl rfl).1

/-- The reset block establishes every field of the C7 claim. -/
theorem update_to_state_reset_fields (st : state) (lc : Option vote_set) (s : cs_state) :
    (update_to_state_reset st lc s).rs.height =
      (if st.last_block_height + 1 = 1 then st.initial_height
       else st.last_block_height + 1) ∧
    (update_to_state_reset st lc s).rs.round = 0 ∧
    (update_to_state_reset st lc s).rs.step = round_step_type.NewHeight ∧
    (update_to_state_reset st lc s).rs.locked_round = -1 ∧
    (update_to_state_reset st lc s).rs.valid_round = -1 ∧
    (update_to_state_reset st lc s).rs.commit_round = -1 ∧
    (update_to_state_reset st lc s).rs.triggered_timeout_precommit = false ∧
    (update_to_state_reset st lc s).rs.proposal = none ∧
    (update_to_state_reset st lc s).rs.proposal_block = none ∧
    (update_to_state_reset st lc s).rs.proposal_block_parts = none ∧
    (update_to_state_reset st lc s).rs.locked_block = none ∧
    (update_to_state_reset st lc s).rs.locked_block_parts = none ∧
    (update_to_state_reset st lc s).rs.valid_block = none ∧
    (update_to_state_reset st lc s).rs.valid_block_parts = none := by
  refine ⟨rfl, rfl, rfl, rfl, rfl, rfl, rfl, rfl, rfl, rfl, rfl, rfl, rfl, rfl⟩

/-- C7: whenever `update_to_state(s)` is applied with `s` strictly further
out than the stored local state (or with no stored state yet) and completes
without an invariant error, afterwards `rs.height` equals
`s.last_block_height + 1` (or `s.initial_height` when that sum is 1),
`rs.round = 0`, `rs.step = NewHeight`, `rs.locked_round = -1`,
`rs.valid_round = -1`, `rs.commit_round = -1`,
`triggered_timeout_precommit` is false, and the proposal, locked-block and
valid-block fields are all cleared. -/
theorem C7_update_to_state_reset (st : state) (s : cs_state)
    (hfurther : s.local_state.is_empty = true ∨
      s.local_state.last_block_height < st.last_block_height)
    (hok : (update_to_state st s).error = none) :
    (update_to_state st s).rs.height =
      (if st.last_block_height + 1 = 1 then st.initial_height
       else st.last_block_height + 1) ∧
    (update_to_state st s).rs.round = 0 ∧
    (update_to_state st s).rs.step = round_step_type.NewHeight ∧
    (update_to_state st s).rs.locked_round = -1 ∧
    (update_to_state st s).rs.valid_round = -1 ∧
    (update_to_state st s).rs.commit_round = -1 ∧
    (update_to_state st s).rs.triggered_timeout_precommit = false ∧
    (update_to_state st s).rs.proposal = none ∧
    (update_to_state st s).rs.proposal_block = none ∧
    (update_to_state st s).rs.proposal_block_parts = none ∧
    (update_to_state st s).rs.locked_block = none ∧
    (update_to_state st s).rs.locked_block_parts = none ∧
    (update_to_state st s).rs.valid_block = none ∧
    (update_to_state st s).rs.valid_block_parts = none := by
  by_cases hb1 : s.rs.commit_round > -1 ∧ 0 < s.rs.height ∧ s.rs.height ≠ st.last_block_height
  · rw [update_to_state, if_pos hb1] at hok
    simp [throw_err] at hok
  by_cases hb2 : ¬ s.local_state.is_empty = true ∧ s.local_state.last_block_height > 0 ∧
      s.local_state.last_block_height + 1 ≠ s.rs.height
  · rw [update_to_state, if_neg hb1, if_pos hb2] at hok
    simp [throw_err] at hok
  by_cases hb3 : ¬ s.local_state.is_empty = true ∧ s.local_state.last_block_height > 0 ∧
      s.rs.height = s.local_state.initial_height
  · rw [update_to_state, if_neg hb1, if_neg hb2, if_pos hb3] at hok
    simp [throw_err] at hok
  have hb4 : ¬ (¬ s.local_state.is_empty = true ∧
      st.last_block_height ≤ s.local_state.last_block_height) := by
    rcases hfurther with hf | hf
    · intro h
      exact h.1 hf
    · intro h
      omega
  rw [update_to_state, if_neg hb1, if_neg hb2, if_neg hb3, if_neg hb4] at hok ⊢
  simp only at hok ⊢
  by_cases hz : st.last_block_height = 0
  · rw [if_pos hz] at hok ⊢
    exact update_to_state_reset_fields st none _
  rw [if_neg hz] at hok ⊢
  by_cases hcr : s.rs.commit_round > -1
  · rw [if_pos hcr] at hok ⊢
    by_cases hmj : (s.rs.votes.precommit_sets s.rs.commit_round).has_maj23 = true
    · rw [if_pos hmj] at hok ⊢
      exact update_to_state_reset_fields st _ _
    · rw [if_neg hmj] at hok
      simp [throw_err] at hok
  rw [if_neg hcr] at hok ⊢
  by_cases hlc : s.rs.last_commit.isSome = true
  · rw [if_pos hlc] at hok ⊢
    exact update_to_state_reset_fields st _ _
  · rw [if_neg hlc] at hok
    simp [throw_err] at hok

/-- C7 witness: updating from the empty initial state to a concrete further
state completes without error and resets round/step. -/
theorem C7_update_to_state_reset_witness :
    (update_to_state st_new cs0).error = none ∧
    (update_to_state st_new cs0).rs.round = 0 ∧
    (update_to_state st_new cs0).rs.step = round_step_type.NewHeight :=
  ⟨rfl, (C7_update_to_state_reset st_new cs0 (Or.inl rfl) rfl).2.1,
    (C7_update_to_state_reset st_new cs0 (Or.inl rfl) rfl).2.2.1⟩

/-- C3 counterexample: a state with a nil 2/3 prevote majority at the
current round but `pol_info() = -1`: the claim says `enter_precommit`
unlocks and precommits nil, but the code raises an invariant error at the
`pol_round` check, leaves the lock in place and signs nothing. -/
theorem C3_pol_round_counterexample :
    (c3x.rs.votes.prevote_sets 0).maj23 = some ⟨[], psh1⟩ ∧
    (enter_precommit 1 0 c3x).error.isSome = true ∧
    (enter_precommit 1 0 c3x).rs.locked_round = 0 ∧
    (enter_precommit 1 0 c3x).rs.locked_block = some b1 ∧
    (enter_precommit 1 0 c3x).signed_calls = [] := by
  refine ⟨rfl, rfl, rfl, rfl, rfl⟩

/-- C3 (amended): for every `h = rs.height` and round `r` passing the step
guard (starting from an error-free state), `enter_precommit(h, r)` follows
the polka case analysis with two provisos forced by the code: when a
majority exists but `pol_info() < r`, an invariant error is raised instead
(lock untouched, nothing signed); and in the unknown-block case the
proposal block and parts are reset only when the current parts header does
not already match the majority header.  In each non-error case the step
becomes Precommit at round `r`: no majority — precommit nil, lock
unchanged; majority for nil — unlock (when locked) and precommit nil;
majority for the locked block — relock at `r` and precommit it; majority
for the proposal block — lock it at `r` and precommit it; majority for an
unknown block — unlock and precommit nil.  The presence hypotheses on the
dereferenced optionals are required by C9. -/
theorem C3_enter_precommit_amended (s : cs_state) (h r : Int)
    (he : s.error = none) (hh : s.rs.height = h) (hr : s.rs.round ≤ r)
    (hs : s.rs.round = r → s.rs.step.val < round_step_type.Precommit.val) :
    (((s.rs.votes.prevote_sets r).maj23 = none →
      (enter_precommit h r s).error = none ∧
      (enter_precommit h r s).rs.locked_round = s.rs.locked_round ∧
      (enter_precommit h r s).rs.locked_block = s.rs.locked_block ∧
      (enter_precommit h r s).rs.locked_block_parts = s.rs.locked_block_parts ∧
      (enter_precommit h r s).rs.round = r ∧
      (enter_precommit h r s).rs.step = round_step_type.Precommit ∧
      (enter_precommit h r s).signed_calls =
        s.signed_calls ++ [(signed_msg_type.Precommit, ([] : bytes), psh_zero)]) ∧
    (∀ bid, (s.rs.votes.prevote_sets r).maj23 = some bid →
      s.rs.votes.pol_round < r →
      (enter_precommit h r s).error = some (.invariant "pol_round should be this round") ∧
      (enter_precommit h r s).rs.locked_round = s.rs.locked_round ∧
      (enter_precommit h r s).rs.locked_block = s.rs.locked_block ∧
      (enter_precommit h r s).rs.round = r ∧
      (enter_precommit h r s).rs.step = round_step_type.Precommit ∧
      (enter_precommit h r s).signed_calls = s.signed_calls) ∧
    (∀ bid, (s.rs.votes.prevote_sets r).maj23 = some bid →
      r ≤ s.rs.votes.pol_round → bid.hash = [] →
      (enter_precommit h r s).error = none ∧
      (s.rs.locked_block = none →
        (enter_precommit h r s).rs.locked_round = s.rs.locked_round ∧
        (enter_precommit h r s).rs.locked_block = none) ∧
      (s.rs.locked_block.isSome = true →
        (enter_precommit h r s).rs.locked_round = -1 ∧
        (enter_precommit h r s).rs.locked_block = none ∧
        (enter_precommit h r s).rs.locked_block_parts = none) ∧
      (enter_precommit h r s).rs.round = r ∧
      (enter_precommit h r s).rs.step = round_step_type.Precommit ∧
      (enter_precommit h r s).signed_calls =
        s.signed_calls ++ [(signed_msg_type.Precommit, ([] : bytes), psh_zero)]) ∧
    (∀ bid lb, (s.rs.votes.prevote_sets r).maj23 = some bid →
      r ≤ s.rs.votes.pol_round → bid.hash ≠ [] →
      s.rs.locked_block = some lb → lb.hashes_to bid.hash = true →
      (enter_precommit h r s).error = none ∧
      (enter_precommit h r s).rs.locked_round = r ∧
      (enter_precommit h r s).rs.locked_block = some lb ∧
      (enter_precommit h r s).rs.round = r ∧
      (enter_precommit h r s).rs.step = round_step_type.Precommit ∧
      (enter_precommit h r s).signed_calls =
        s.signed_calls ++ [(signed_msg_type.Precommit, bid.hash, bid.parts)]) ∧
    (∀ bid lb pb, (s.rs.votes.prevote_sets r).maj23 = some bid →
      r ≤ s.rs.votes.pol_round → bid.hash ≠ [] →
      s.rs.locked_block = some lb → lb.hashes_to bid.hash = false →
      s.rs.proposal_block = some pb → pb.hashes_to bid.hash = true →
      (enter_precommit h r s).error = none ∧
      (enter_precommit h r s).rs.locked_round = r ∧
      (enter_precommit h r s).rs.locked_block = some pb ∧
      (enter_precommit h r s).rs.locked_block_parts = s.rs.proposal_block_parts ∧
      (enter_precommit h r s).rs.round = r ∧
      (enter_precommit h r s).rs.step = round_step_type.Precommit ∧
      (enter_precommit h r s).signed_calls =
        s.signed_calls ++ [(signed_msg_type.Precommit, bid.hash, bid.parts)]) ∧
    (∀ bid lb pb pp, (s.rs.votes.prevote_sets r).maj23 = some bid →
      r ≤ s.rs.votes.pol_round → bid.hash ≠ [] →
      s.rs.locked_block = some lb → lb.hashes_to bid.hash = false →
      s.rs.proposal_block = some pb → pb.hashes_to bid.hash = false →
      s.rs.proposal_block_parts = some pp →
      (enter_precommit h r s).error = none ∧
      (enter_precommit h r s).rs.locked_round = -1 ∧
      (enter_precommit h r s).rs.locked_block = none ∧
      (enter_precommit h r s).rs.locked_block_parts = none ∧
      (pp.has_header bid.parts = true →
        (enter_precommit h r s).rs.proposal_block = some pb ∧
        (enter_precommit h r s).rs.proposal_block_parts = some pp) ∧
      (pp.has_header bid.parts = false →
        (enter_precommit h r s).rs.proposal_block = none ∧
        (enter_precommit h r s).rs.proposal_block_parts =
          some (part_set.new_part_set_from_header bid.parts)) ∧
      (enter_precommit h r s).rs.round = r ∧
      (enter_precommit h r s).rs.step = round_step_type.Precommit ∧
      (enter_precommit h r s).signed_calls =
        s.signed_calls ++ [(signed_msg_type.Precommit, ([] : bytes), psh_zero)])) := by
  have hguard : ¬ (s.rs.height ≠ h ∨ r < s.rs.round ∨
      (s.rs.round = r ∧ round_step_type.Precommit.val ≤ s.rs.step.val)) := by
    intro hcon
    rcases hcon with hc | hc | hc
    · exact hc hh
    · omega
    · exact absurd (hs hc.1) (by omega)
  refine ⟨?_, ?_, ?_, ?_, ?_, ?_⟩
  · intro hmaj
    rw [enter_precommit, if_neg hguard]
    simp [with_defer, hmaj, sign_add_vote, new_step, update_round_step, he]
  · intro bid hmaj hpol
    rw [enter_precommit, if_neg hguard]
    simp [with_defer, hmaj, if_pos hpol, throw_err, new_step, update_round_step, he]
  · intro bid hmaj hpol hnil
    rw [enter_precommit, if_neg hguard]
    rcases hlb : s.rs.locked_block with _ | lb <;>
      simp [with_defer, hmaj, if_neg (not_lt.2 hpol), hnil, hlb, sign_add_vote,
        new_step, update_round_step, he]
  · intro bid lb hmaj hpol hnn hlb hhash
    rw [enter_precommit, if_neg hguard]
    simp [with_defer, hmaj, if_neg (not_lt.2 hpol), hnn, hlb, hhash, sign_add_vote,
      new_step, update_round_step, he]
  · intro bid lb pb hmaj hpol hnn hlb hhash hpb hph
    rw [enter_precommit, if_neg hguard]
    simp [with_defer, hmaj, if_neg (not_lt.2 hpol), hnn, hlb, hhash, hpb, hph,
      sign_add_vote, new_step, update_round_step, he]
  · intro bid lb pb pp hmaj hpol hnn hlb hhash hpb hph hpp
    rw [enter_precommit, if_neg hguard]
    rcases hhd : pp.has_header bid.parts <;>
      simp [with_defer, hmaj, if_neg (not_lt.2 hpol), hnn, hlb, hhash, hpb, hph, hpp,
        hhd, sign_add_vote, new_step, update_round_step, he]

/-- C3 witness: at a concrete guard-passing state with no prevote majority,
`enter_precommit` precommits nil without error and advances to Precommit. -/
theorem C3_enter_precommit_amended_witness :
    (enter_precommit 1 0 c2c).error = none ∧
    (enter_precommit 1 0 c2c).rs.step = round_step_type.Precommit ∧
    (enter_precommit 1 0 c2c).signed_calls =
      [(signed_msg_type.Precommit, ([] : bytes), psh_zero)] :=
  ((C3_enter_precommit_amended c2c 1 0 rfl rfl (by decide)
      (fun _ => by decide)).1 rfl).imp id (fun hrest =>
    ⟨hrest.2.2.2.2.1, by simpa using hrest.2.2.2.2.2⟩)

/-- C6 counterexample: a 2/3 precommit majority for the NIL block id — "not
a block id with a non-nil hash" — does not raise the invariant error: the
claim's error condition is wrong (the code throws only when the majority is
absent).  The commit fields are still set. -/
theorem C6_nil_majority_no_error :
    (c6x.rs.votes.precommit_sets 0).maj23 = some ⟨[], psh1⟩ ∧
    (enter_commit 1 0 c6x).error = none ∧
    (enter_commit 1 0 c6x).rs.commit_round = 0 ∧
    (enter_commit 1 0 c6x).rs.commit_time = c6x.now ∧
    (enter_commit 1 0 c6x).rs.step = round_step_type.Commit := by
  refine ⟨rfl, rfl, rfl, rfl, rfl⟩

/-- C6 (amended): for `h = rs.height` with step before Commit (and an
error-free start), `enter_commit(h, r)` raises its invariant error exactly
when the 2/3 precommit majority is ABSENT — a nil-hash majority raises no
error — and in every case, the error case included (the deferred block runs
during unwinding), it sets `commit_round = r`, `commit_time = now`,
`round = r` and the step to Commit.  With a non-nil majority for a block we
have neither locked nor proposed: if the proposal parts header matches the
majority the proposal is kept and no error is raised; on a mismatch the
proposal block is cleared, the parts are re-allocated from the majority
header, and the deferred `try_finalize_commit` then dereferences the empty
`proposal_block`.  Presence hypotheses on the dereferenced optionals are
required by C9. -/
theorem C6_enter_commit_amended (s : cs_state) (h r : Int)
    (he : s.error = none) (hh : s.rs.height = h)
    (hstep : s.rs.step.val < round_step_type.Commit.val) :
    (((s.rs.votes.precommit_sets r).maj23 = none →
      (enter_commit h r s).error =
        some (.invariant "enter_commit expects two thirds precommits") ∧
      (enter_commit h r s).rs.commit_round = r ∧
      (enter_commit h r s).rs.commit_time = s.now ∧
      (enter_commit h r s).rs.round = r ∧
      (enter_commit h r s).rs.step = round_step_type.Commit) ∧
    (∀ bid lb pb pp, (s.rs.votes.precommit_sets r).maj23 = some bid →
      bid.hash = [] →
      s.rs.locked_block = some lb → lb.hashes_to bid.hash = false →
      s.rs.proposal_block = some pb → pb.hashes_to bid.hash = false →
      s.rs.proposal_block_parts = some pp →
      (enter_commit h r s).error = none ∧
      (enter_commit h r s).rs.commit_round = r ∧
      (enter_commit h r s).rs.commit_time = s.now ∧
      (enter_commit h r s).rs.round = r ∧
      (enter_commit h r s).rs.step = round_step_type.Commit) ∧
    (∀ bid lb pb pp, (s.rs.votes.precommit_sets r).maj23 = some bid →
      bid.hash ≠ [] →
      s.rs.locked_block = some lb → lb.hashes_to bid.hash = false →
      s.rs.proposal_block = some pb → pb.hashes_to bid.hash = false →
      s.rs.proposal_block_parts = some pp → pp.has_header bid.parts = true →
      (enter_commit h r s).error = none ∧
      (enter_commit h r s).rs.commit_round = r ∧
      (enter_commit h r s).rs.commit_time = s.now ∧
      (enter_commit h r s).rs.round = r ∧
      (enter_commit h r s).rs.step = round_step_type.Commit ∧
      (enter_commit h r s).rs.proposal_block = some pb ∧
      (enter_commit h r s).rs.proposal_block_parts = some pp) ∧
    (∀ bid lb pb pp, (s.rs.votes.precommit_sets r).maj23 = some bid →
      bid.hash ≠ [] →
      s.rs.locked_block = some lb → lb.hashes_to bid.hash = false →
      s.rs.proposal_block = some pb → pb.hashes_to bid.hash = false →
      s.rs.proposal_block_parts = some pp → pp.has_header bid.parts = false →
      (enter_commit h r s).error = some (.empty_optional "proposal_block") ∧
      (enter_commit h r s).rs.commit_round = r ∧
      (enter_commit h r s).rs.commit_time = s.now ∧
      (enter_commit h r s).rs.round = r ∧
      (enter_commit h r s).rs.step = round_step_type.Commit ∧
      (enter_commit h r s).rs.proposal_block = none ∧
      (enter_commit h r s).rs.proposal_block_parts =
        some (part_set.new_part_set_from_header bid.parts))) := by
  have hguard : ¬ (s.rs.height ≠ h ∨ round_step_type.Commit.val ≤ s.rs.step.val) := by
    intro hcon
    rcases hcon with hc | hc
    · exact hc hh
    · omega
  refine ⟨?_, ?_, ?_, ?_⟩
  · intro hmaj
    rw [enter_commit, if_neg hguard]
    simp [with_defer, hmaj, throw_err, new_step, update_round_step,
      try_finalize_commit, hh, he]
  · intro bid lb pb pp hmaj hnil hlb hlh hpb hph hpp
    rw [enter_commit, if_neg hguard]
    rw [hnil] at hlh hph
    rcases hhd : pp.has_header bid.parts <;>
      simp [with_defer, hmaj, hnil, hlb, hlh, hpb, hph, hpp, hhd, throw_err, new_step,
        update_round_step, try_finalize_commit, hh, he]
  · intro bid lb pb pp hmaj hnn hlb hlh hpb hph hpp hhd
    rw [enter_commit, if_neg hguard]
    simp [with_defer, hmaj, hnn, hlb, hlh, hpb, hph, hpp, hhd, throw_err, new_step,
      update_round_step, try_finalize_commit, hh, he]
  · intro bid lb pb pp hmaj hnn hlb hlh hpb hph hpp hhd
    rw [enter_commit, if_neg hguard]
    simp [with_defer, hmaj, hnn, hlb, hlh, hpb, hph, hpp, hhd, throw_err, new_step,
      update_round_step, try_finalize_commit, hh, he]

/-- C6 witness: at a concrete state with no precommit majority the
invariant error is raised and the commit fields are still set through the
scope exit. -/
theorem C6_enter_commit_amended_witness :
    (enter_commit 1 0 c6w).error =
      some (.invariant "enter_commit expects two thirds precommits") ∧
    (enter_commit 1 0 c6w).rs.commit_round = 0 ∧
    (enter_commit 1 0 c6w).rs.step = round_step_type.Commit :=
  ((C6_enter_commit_amended c6w 1 0 rfl rfl (by decide)).1 rfl).imp id
    (fun hrest => ⟨hrest.1, hrest.2.2.2⟩)

/-- At most `k + 1` hexadecimal digits are produced for `n < 16 ^ (k + 1)`. -/
theorem hexLEAux_length (k : Nat) : ∀ fuel n, n < 16 ^ (k + 1) → k < fuel →
    (hexLEAux fuel n).length ≤ k + 1 := by
  induction k with
  | zero =>
    intro fuel n hn hf
    match fuel, hf with
    | f + 1, _ =>
      unfold hexLEAux
      rw [if_pos (by simpa using hn)]
      simp
  | succ k ih =>
    intro fuel n hn hf
    match fuel, hf with
    | f + 1, hf =>
      unfold hexLEAux
      by_cases h16 : n < 16
      · rw [if_pos h16]
        simp
      · rw [if_neg h16]
        simp only [List.length_cons]
        have hdiv : n / 16 < 16 ^ (k + 1) := by
          rw [Nat.div_lt_iff_lt_mul (by norm_num)]
          calc n < 16 ^ (k + 1 + 1) := hn
            _ = 16 ^ (k + 1) * 16 := by ring
        have := ih f (n / 16) hdiv (by omega)
        omega

/-- The digit list of `hexLEAux` evaluates back to its input. -/
theorem hexLEAux_ofLE : ∀ fuel n, n < 16 ^ fuel → ofLE (hexLEAux fuel n) = n := by
  intro fuel
  induction fuel with
  | zero =>
    intro n hn
    simp at hn
    simp [hn, hexLEAux, ofLE]
  | succ f ih =>
    intro n hn
    unfold hexLEAux
    by_cases h16 : n < 16
    · rw [if_pos h16]
      simp [ofLE]
    · rw [if_neg h16]
      have hdiv : n / 16 < 16 ^ f := by
        rw [Nat.div_lt_iff_lt_mul (by norm_num)]
        calc n < 16 ^ (f + 1) := hn
          _ = 16 ^ f * 16 := by ring
      simp only [ofLE, ih (n / 16) hdiv]
      omega

/-- Every digit produced by `hexLEAux` is below 16. -/
theorem hexLEAux_digit_lt : ∀ fuel n d, d ∈ hexLEAux fuel n → d < 16 := by
  intro fuel
  induction fuel with
  | zero =>
    intro n d hd
    simp [hexLEAux] at hd
  | succ f ih =>
    intro n d hd
    unfold hexLEAux at hd
    by_cases h16 : n < 16
    · rw [if_pos h16] at hd
      simp at hd
      omega
    · rw [if_neg h16] at hd
      simp at hd
      rcases hd with hd | hd
      · omega
      · exact ih _ _ hd

/-- Digit byte encoding and decoding cancel. -/
theorem hexByteVal_hexDigitByte (d : Nat) (hd : d < 16) :
    hexByteVal (hexDigitByte d) = d := by
  unfold hexByteVal hexDigitByte
  split_ifs <;> omega

/-- Folding the decoder over encoded digits equals folding the digits. -/
theorem foldl_map_digits : ∀ (l : List Nat) (acc : Nat), (∀ d ∈ l, d < 16) →
    List.foldl (fun a b => 16 * a + hexByteVal b) acc (l.map hexDigitByte) =
      List.foldl (fun a d => 16 * a + d) acc l := by
  intro l
  induction l with
  | nil => intro acc _; rfl
  | cons d ds ih =>
    intro acc hlt
    simp only [List.map_cons, List.foldl_cons,
      hexByteVal_hexDigitByte d (hlt d (List.mem_cons_self d ds))]
    exact ih _ (fun x hx => hlt x (List.mem_cons_of_mem d hx))

/-- Leading zero padding does not change the decoded value. -/
theorem foldl_replicate_zero : ∀ k : Nat,
    List.foldl (fun a b => 16 * a + hexByteVal b) 0 (List.replicate k 48) = 0 := by
  intro k
  induction k with
  | zero => rfl
  | succ k ih => simpa [List.replicate_succ, hexByteVal] using ih

/-- Folding base-16 over a reversed digit list computes its value. -/
theorem foldl_reverse_ofLE : ∀ (l : List Nat) (acc : Nat),
    List.foldl (fun a d => 16 * a + d) acc l.reverse = acc * 16 ^ l.length + ofLE l := by
  intro l
  induction l with
  | nil => intro acc; simp [ofLE]
  | cons d ds ih =>
    intro acc
    simp only [List.reverse_cons, List.foldl_append, List.foldl_cons, List.foldl_nil,
      ih acc, ofLE, List.length_cons]
    ring

/-- `fmt08x` produces exactly eight digits for heights below `2 ^ 32`. -/
theorem fmt08x_length (n : Nat) (hn : n < 2 ^ 32) : (fmt08x n).length = 8 := by
  have h8 : (hexLEAux 64 n).length ≤ 8 := by
    have := hexLEAux_length 7 64 n (by norm_num at hn ⊢; omega) (by norm_num)
    omega
  unfold fmt08x hexDigitsOf
  simp only [List.length_append, List.length_replicate, List.length_map,
    List.length_reverse]
  omega

/-- Decoding `fmt08x n` recovers `n`: the key really encodes the height. -/
theorem hexVal_fmt08x (n : Nat) (hn : n < 2 ^ 32) : hexVal (fmt08x n) = n := by
  have hn64 : n < 16 ^ 64 := by
    calc n < 2 ^ 32 := hn
      _ ≤ 16 ^ 64 := by norm_num
  unfold hexVal fmt08x hexDigitsOf
  simp only [List.foldl_append, foldl_replicate_zero]
  rw [List.map_reverse]
  have hdig : ∀ d ∈ (hexLEAux 64 n).map hexDigitByte, True := fun _ _ => trivial
  rw [show ((hexLEAux 64 n).map hexDigitByte).reverse.foldl
        (fun a b => 16 * a + hexByteVal b) 0 =
      ((hexLEAux 64 n).reverse.map hexDigitByte).foldl
        (fun a b => 16 * a + hexByteVal b) 0 by rw [List.map_reverse]]
  rw [foldl_map_digits _ 0 (fun d hd => hexLEAux_digit_lt 64 n d (by
    simpa using hd))]
  rw [foldl_reverse_ofLE]
  simpa using hexLEAux_ofLE 64 n hn64

/-- The `int32_t` cast is the identity on small non-negative values. -/
theorem toInt32_eq_self (n : Int) (h0 : 0 ≤ n) (h1 : n < 2 ^ 31) : toInt32 n = n := by
  unfold toInt32
  omega

/-- C8 counterexample: at height `2 ^ 32 = 4294967296` the key written by
`save_validators_info` is one prefix byte followed by NINE hex digits
(`fmt` pads to a minimum of eight but does not truncate), so "exactly ...
8-hex-digit encoding" is false as a universal statement. -/
theorem C8_key_not_eight_digits :
    save_validators_info 4294967296 0 vs0 =
      some (encode_key pfx_validators 4294967296,
        { last_height_changed := 0, v_set := none }) ∧
    (encode_key pfx_validators 4294967296).length = 10 := by
  constructor
  · rfl
  · rfl

/-- C8 (amended): for `0 ≤ h < 2 ^ 32` and `c ≤ h`, `save_validators_info`
writes under a key of exactly one prefix byte followed by the zero-padded
8-hex-digit encoding of `h` (for larger heights the encoding keeps all its
digits), stores the full validator set iff `h = c` or `h` is a multiple of
100000 and otherwise only the back-pointer `c`, and returns false when
`c > h`; `load_validators(h)` recovers the set by reloading at
`max(h - h mod 100000, c)` and, provided the reloaded record carries the
same back-pointer `c` and `0 ≤ h - c < 2 ^ 31`, incrementing the proposer
priority by `h - c`. -/
theorem C8_db_store_amended (h c : Int) (vs : validator_set)
    (dbm : List Nat → Option validators_info) :
    (0 ≤ h → h < 4294967296 →
      encode_key pfx_validators h = pfx_validators :: fmt08x h.toNat ∧
      (encode_key pfx_validators h).length = 9 ∧
      hexVal (fmt08x h.toNat) = h.toNat) ∧
    (c ≤ h → save_validators_info h c vs =
      some (encode_key pfx_validators h,
        { last_height_changed := c,
          v_set := if h = c ∨ h % 100000 = 0 then some vs else none })) ∧
    (h < c → save_validators_info h c vs = none) ∧
    (∀ vset, dbm (encode_key pfx_validators h) =
        some { last_height_changed := c, v_set := none } →
      dbm (encode_key pfx_validators (last_stored_height_for h c)) =
        some { last_height_changed := c, v_set := some vset } →
      0 ≤ h - c → h - c < 2 ^ 31 →
      load_validators dbm h = some (vset.increment_proposer_priority (h - c))) := by
  refine ⟨?_, ?_, ?_, ?_⟩
  · intro h0 h32
    have hn : h.toNat < 2 ^ 32 := by omega
    refine ⟨rfl, ?_, hexVal_fmt08x h.toNat hn⟩
    simp only [encode_key, List.length_cons, fmt08x_length h.toNat hn]
  · intro hc
    unfold save_validators_info
    rw [if_neg (by omega)]
    rfl
  · intro hc
    unfold save_validators_info
    rw [if_pos (by omega)]
  · intro vset h1 h2 hd0 hd1
    unfold load_validators
    rw [h1]
    simp only
    rw [h2]
    simp only
    rw [toInt32_eq_self (h - c) hd0 hd1]

/-- C8 witness: a concrete save/load round at heights 3 (back-pointer 2). -/
theorem C8_db_store_amended_witness :
    load_validators
      (fun k =>
        if k = encode_key pfx_validators 3 then
          some { last_height_changed := 2, v_set := none }
        else if k = encode_key pfx_validators 2 then
          some { last_height_changed := 2, v_set := some vs0 }
        else none) 3 =
      some (vs0.increment_proposer_priority 1) :=
  (C8_db_store_amended 3 2 vs0 _).2.2.2 vs0 (by decide) (by decide) (by decide) (by decide)

end Noir
